import Mathlib

/- Shallow embedding of the FailWhale desktop CI notifier (main.js).

   The embedding covers the parts of the program that carry logic:
   the repository resolver (extractRepoInfo), the CI status client retry
   loop (fetchWorkflowRuns), the workflow state tracker (checkWorkflows),
   the gif collaborator (getRandomGif), and the source-store IPC handlers
   (add-source, remove-source).  External effects (HTTP, timers, windows)
   are modelled as explicit inputs: each HTTP interaction is an oracle value
   describing what the network returned, and each timer delay is recorded in
   an output trace instead of being slept. -/

/-- JS `String.prototype.includes`, on char lists. -/
def containsSub (pat : List Char) : List Char → Bool
  | [] => pat.isPrefixOf []
  | c :: rest => pat.isPrefixOf (c :: rest) || containsSub pat rest

/-- Result of the repository resolver: the two regex capture groups. -/
structure RepoInfo where
  owner : String
  repo : String
deriving DecidableEq

/-- The literal part of the regex `/github\.com\/([^\/]+)\/([^\/]+)/`. -/
def githubPat : List Char := "github.com/".data

/-- The character class `[^\/]` of the regex. -/
def segChar (c : Char) : Bool := c != '/'

/-- The two capture groups `([^\/]+)\/([^\/]+)` right after the literal
    `github.com/`.  Each `[^\/]+` is greedy; since it can never consume a
    slash, backtracking cannot produce any other division, so each group is
    the maximal nonempty run of non-slash characters. -/
def parseTwoSegs (l : List Char) : Option RepoInfo :=
  match l.takeWhile segChar, l.dropWhile segChar with
  | [], _ => none
  | _, [] => none
  | o, _ :: after =>
    match after.takeWhile segChar with
    | [] => none
    | r => some ⟨String.mk o, String.mk r⟩

/-- One attempted regex match starting at the head of `l`. -/
def matchAt (l : List Char) : Option RepoInfo :=
  if githubPat.isPrefixOf l then parseTwoSegs (l.drop githubPat.length)
  else none

/-- Leftmost regex match: JS `String.prototype.match` tries each start
    position from the left. -/
def findMatch : List Char → Option RepoInfo
  | [] => none
  | c :: rest =>
    match matchAt (c :: rest) with
    | some r => some r
    | none => findMatch rest

/-- main.js `extractRepoInfo`: match the URL against
    `/github\.com\/([^\/]+)\/([^\/]+)/` and return the two capture groups,
    or `null` (here `none`) if there is no match.  A total pure function,
    mirroring the JS function which never throws. -/
def extractRepoInfo (githubUrl : String) : Option RepoInfo := findMatch githubUrl.data

-- Sanity examples matching the repository tests.
example : extractRepoInfo "https://github.com/tnylea/failwhale"
    = some ⟨"tnylea", "failwhale"⟩ := by decide
example : extractRepoInfo "github.com/microsoft/vscode"
    = some ⟨"microsoft", "vscode"⟩ := by decide
example : extractRepoInfo "https://github.com/facebook/react/tree/main"
    = some ⟨"facebook", "react"⟩ := by decide
example : extractRepoInfo "https://gitlab.com/user/repo" = none := by decide
example : extractRepoInfo "not-a-url" = none := by decide
example : extractRepoInfo "" = none := by decide
example : extractRepoInfo "https://github.com/" = none := by decide
example : extractRepoInfo "https://github.com/user" = none := by decide

/-- One entry of the `workflow_runs` array returned by the GitHub API
    (external, read-only; `created_at` is never consulted and is omitted). -/
structure WorkflowRun where
  id : Nat
  status : String
  conclusion : Option String
deriving DecidableEq

/-- One value of the `workflowStates` map.  The first-seen and completion
    branches of checkWorkflows store objects without a `notifiedStart`
    property (JS `undefined`, falsy), modelled as `false`. -/
structure WorkflowState where
  latestRunId : Nat
  status : String
  conclusion : Option String
  notifiedStart : Bool
deriving DecidableEq

/-- The gif record produced by getRandomGif and consumed by
    createGifWindow. -/
structure GifData where
  url : String
  width : Nat
  height : Nat
deriving DecidableEq

/-- The notification classification of spec section 4.5.  checkWorkflows
    triggers the collaborator with the gif tag string given by `gifTagOf`. -/
inductive NotifTag where
  | started
  | success
  | failure
deriving DecidableEq

/-- The literal tag string passed to getRandomGif in each branch of
    checkWorkflows. -/
def gifTagOf : NotifTag → String
  | NotifTag.started => "lets get started"
  | NotifTag.success => "success"
  | NotifTag.failure => "failure"

/-- What one pass of the checkWorkflows state machine did for one repo:
    `setCall` is the argument of the `workflowStates.set` call if one was
    made (`none` = the map entry was left untouched), `notifications` the
    triggered notification tags, `popups` the createGifWindow calls. -/
structure StepResult where
  setCall : Option WorkflowState
  notifications : List NotifTag
  popups : List GifData
deriving DecidableEq

/-- The per-repo body of checkWorkflows (main.js lines 274-314), given the
    previously tracked state, the latest observed run, and the gif
    collaborator response `gifFor` for each requested tag. -/
def processRun (previousState : Option WorkflowState) (latestRun : WorkflowRun)
    (gifFor : String → GifData) : StepResult :=
  match previousState with
  | none =>
    -- First time seeing this repo: record it, notify nothing.
    ⟨some ⟨latestRun.id, latestRun.status, latestRun.conclusion, false⟩, [], []⟩
  | some previousState =>
    if latestRun.id ≠ previousState.latestRunId then
      if latestRun.status ≠ "completed" then
        -- New workflow started.
        let gifData := gifFor (gifTagOf NotifTag.started)
        ⟨some ⟨latestRun.id, latestRun.status, latestRun.conclusion, true⟩,
         [NotifTag.started],
         if gifData.url ≠ "" then [gifData] else []⟩
      else
        -- New run already completed: the JS `if` has no else branch.
        ⟨none, [], []⟩
    else if previousState.status ≠ "completed" ∧ latestRun.status = "completed" then
      -- Previously running workflow completed.
      let tag := if latestRun.conclusion = some "success" then NotifTag.success
                 else NotifTag.failure
      let gifData := gifFor (gifTagOf tag)
      ⟨some ⟨latestRun.id, latestRun.status, latestRun.conclusion, false⟩,
       [tag],
       if gifData.url ≠ "" then [gifData] else []⟩
    else ⟨none, [], []⟩

/-- The map entry for the repo after a pass: replaced when `set` was called,
    otherwise whatever was there before. -/
def entryAfter (previous : Option WorkflowState) (res : StepResult) :
    Option WorkflowState :=
  match res.setCall with
  | some v => some v
  | none => previous

/-- The `workflowStates` JS Map, as an association list with unique keys. -/
abbrev StateMap : Type := List (String × WorkflowState)

/-- JS `Map.prototype.get`. -/
def mapGet : StateMap → String → Option WorkflowState
  | [], _ => none
  | (k', v) :: rest, k => if k' = k then some v else mapGet rest k

/-- JS `Map.prototype.set`: replace in place, or append a new entry. -/
def mapSet : StateMap → String → WorkflowState → StateMap
  | [], k, v => [(k, v)]
  | (k', v') :: rest, k, v =>
    if k' = k then (k, v) :: rest else (k', v') :: mapSet rest k v

/-- JS `Map.prototype.delete` (keys are unique, so removing every entry with
    the key is the same operation). -/
def mapDelete : StateMap → String → StateMap
  | [], _ => []
  | (k', v) :: rest, k =>
    if k' = k then mapDelete rest k else (k', v) :: mapDelete rest k

/-- One persisted source record. -/
structure Source where
  url : String
  added : String
deriving DecidableEq

/-- The per-source body of the checkWorkflows loop (main.js lines 263-315):
    resolve the URL (continue on failure), take the fetched runs for this
    cycle (continue when empty), then run the state machine on `runs[0]`
    and apply its `set` call to the map.  `fetchRuns` is the oracle for what
    fetchWorkflowRuns returned this cycle.  Returns the updated map together
    with the notifications and popup windows of this source. -/
def checkSource (states : StateMap) (source : Source)
    (fetchRuns : RepoInfo → List WorkflowRun) (gifFor : String → GifData) :
    StateMap × List NotifTag × List GifData :=
  match extractRepoInfo source.url with
  | none => (states, [], [])
  | some repoInfo =>
    match fetchRuns repoInfo with
    | [] => (states, [], [])
    | latestRun :: _ =>
      let sourceKey := repoInfo.owner ++ "/" ++ repoInfo.repo
      let res := processRun (mapGet states sourceKey) latestRun gifFor
      match res.setCall with
      | some v => (mapSet states sourceKey v, res.notifications, res.popups)
      | none => (states, res.notifications, res.popups)

/-- A whole polling cycle (main.js checkWorkflows): gated on the network
    probe, then every source in stored order. -/
def checkWorkflows (networkAvailable : Bool) (sources : List Source)
    (states : StateMap) (fetchRuns : RepoInfo → List WorkflowRun)
    (gifFor : String → GifData) : StateMap × List NotifTag × List GifData :=
  if networkAvailable then
    sources.foldl
      (fun acc source =>
        let step := checkSource acc.1 source fetchRuns gifFor
        (step.1, acc.2.1 ++ step.2.1, acc.2.2 ++ step.2.2))
      (states, [], [])
  else (states, [], [])

/-- The errors thrown by the add-source IPC handler:
    `invalidUrl` is `Error('Invalid GitHub URL')`,
    `duplicate` is `Error('Source already exists')`. -/
inductive AddError where
  | invalidUrl
  | duplicate
deriving DecidableEq

/-- The add-source IPC handler (main.js lines 505-520).  A thrown error is
    an `Except.error`; the sources list is only replaced by the caller on
    `Except.ok`, so on rejection the store is unchanged. -/
def addSource (sources : List Source) (url : String) (now : String) :
    Except AddError (List Source) :=
  match extractRepoInfo url with
  | none => Except.error AddError.invalidUrl
  | some _ =>
    if sources.any (fun source => source.url == url) then
      Except.error AddError.duplicate
    else
      Except.ok (sources ++ [⟨url, now⟩])

/-- The remove-source IPC handler (main.js lines 522-535): for a valid
    index, splice the source out and delete its workflow state entry (when
    the removed URL resolves); otherwise do nothing.  `sources[index]?` is
    `some` exactly when `index >= 0 && index < sources.length`. -/
def removeSource (sources : List Source) (states : StateMap) (index : Nat) :
    List Source × StateMap :=
  match sources[index]? with
  | none => (sources, states)
  | some removed =>
    let rest := sources.eraseIdx index
    match extractRepoInfo removed.url with
    | none => (rest, states)
    | some repoInfo => (rest, mapDelete states (repoInfo.owner ++ "/" ++ repoInfo.repo))

/-- One interaction of getRandomGif with the Giphy API: either the fetch
    threw / responded non-ok / had no `downsized_medium` image, or it
    produced an image with a url and `parseInt` results for width and
    height (`none` = NaN). -/
inductive GiphyOutcome where
  | httpError (status : Nat)
  | fetchError (message : String)
  | noImage
  | image (url : String) (width height : Option Nat)
deriving DecidableEq

/-- Did the Giphy call yield an image? -/
def isImage : GiphyOutcome → Bool
  | GiphyOutcome.image _ _ _ => true
  | _ => false

/-- JS `parseInt(x, 10) || d`: the parse result unless it is NaN or 0
    (both falsy). -/
def jsOrDefault : Option Nat → Nat → Nat
  | some n, d => if n = 0 then d else n
  | none, d => d

/-- main.js getRandomGif: on any error or missing image it falls through to
    `return { url: '', width: 400, height: 300 }` instead of throwing. -/
def getRandomGif : GiphyOutcome → GifData
  | GiphyOutcome.image url w h => ⟨url, jsOrDefault w 400, jsOrDefault h 300⟩
  | _ => ⟨"", 400, 300⟩

example : getRandomGif (GiphyOutcome.httpError 500) = ⟨"", 400, 300⟩ := by decide
example : getRandomGif (GiphyOutcome.image "u" (some 0) none) = ⟨"u", 400, 300⟩ := by
  decide

/-- The fields of a caught JS exception that fetchWorkflowRuns inspects. -/
structure JsError where
  code : Option String
  name : String
  message : String
deriving DecidableEq

/-- main.js line 217: the transience test applied to a caught error. -/
def isNetworkError (e : JsError) : Bool :=
  e.code == some "ENOTFOUND" || e.name == "AbortError"
    || containsSub "fetch failed".data e.message.data

/-- What one HTTP attempt of fetchWorkflowRuns observed: a response object
    (with its `ok` flag, `status`, and the `workflow_runs` field of its JSON
    body, `none` when absent), or an exception thrown by fetch itself
    (timeout abort, DNS failure, ...). -/
inductive FetchOutcome where
  | response (ok : Bool) (status : Nat) (runs : Option (List WorkflowRun))
  | thrown (e : JsError)
deriving DecidableEq

/-- The message of the error thrown for a non-ok response
    (main.js lines 205-211). -/
def httpErrorMessage (status : Nat) : String :=
  if status = 403 then "GitHub API rate limited: " ++ toString status
  else "GitHub API error: " ++ toString status

/-- The try-body of one attempt: a non-ok response throws an `Error` (whose
    `code` is undefined and whose `name` is "Error"), an ok response returns
    `data.workflow_runs || []`. -/
def attemptResult : FetchOutcome → Except JsError (List WorkflowRun)
  | FetchOutcome.response true _ runs => Except.ok (runs.getD [])
  | FetchOutcome.response false status _ =>
    Except.error ⟨none, "Error", httpErrorMessage status⟩
  | FetchOutcome.thrown e => Except.error e

/-- An attempt outcome the client treats as transient: it errors and the
    error passes the isNetworkError test. -/
def isTransientOutcome (o : FetchOutcome) : Bool :=
  match attemptResult o with
  | Except.ok _ => false
  | Except.error e => isNetworkError e

/-- main.js line 225: `Math.min(1000 * Math.pow(2, attempt - 1), 30000)`. -/
def backoffDelay (attempt : Nat) : Nat := min (1000 * 2 ^ (attempt - 1)) 30000

/-- Observable trace of one fetchWorkflowRuns call: the returned run list,
    how many HTTP attempts were issued, and the backoff delays slept
    between attempts. -/
structure FetchTrace where
  result : List WorkflowRun
  attemptsMade : Nat
  delays : List Nat
deriving DecidableEq

/-- The `for (let attempt = 1; attempt <= retries; attempt++)` loop of
    fetchWorkflowRuns (main.js lines 190-233), with the remaining iteration
    count as fuel (`fuel = retries - attempt + 1` at every call).
    Every branch returns a value: the JS function never throws. -/
def fetchLoop (oracle : Nat → FetchOutcome) (retries : Nat) :
    Nat → Nat → FetchTrace
  | attempt, 0 => ⟨[], attempt - 1, []⟩
  | attempt, fuel + 1 =>
    match attemptResult (oracle attempt) with
    | Except.ok runs => ⟨runs, attempt, []⟩
    | Except.error e =>
      if attempt = retries then ⟨[], attempt, []⟩
      else if isNetworkError e then
        let rest := fetchLoop oracle retries (attempt + 1) fuel
        ⟨rest.result, rest.attemptsMade, backoffDelay attempt :: rest.delays⟩
      else ⟨[], attempt, []⟩

/-- main.js fetchWorkflowRuns, over an oracle giving the outcome of each
    numbered HTTP attempt.  The call site uses `retries = 3`. -/
def fetchWorkflowRuns (oracle : Nat → FetchOutcome) (retries : Nat) : FetchTrace :=
  fetchLoop oracle retries 1 retries

-- Sanity: two transient failures then a success return the successful
-- result after three attempts with exponential delays (spec section 8).
example :
    fetchWorkflowRuns
      (fun attempt =>
        if attempt ≤ 2 then FetchOutcome.thrown ⟨some "ENOTFOUND", "Error", "x"⟩
        else FetchOutcome.response true 200 (some [⟨1, "completed", some "success"⟩]))
      3
      = ⟨[⟨1, "completed", some "success"⟩], 3, [1000, 2000]⟩ := by decide

-- Sanity: the 403 classification bug — see claim C1 below.
example :
    fetchWorkflowRuns (fun _ => FetchOutcome.response false 403 none) 3
      = ⟨[], 1, []⟩ := by decide

/- ------------------------------------------------------------------
   Helper lemmas.
   ------------------------------------------------------------------ -/

lemma data_append (s t : String) : (s ++ t).data = s.data ++ t.data := rfl

lemma takeWhile_of_all {α : Type} (p : α → Bool) (l : List α)
    (h : ∀ c ∈ l, p c = true) : l.takeWhile p = l := by
  induction l with
  | nil => rfl
  | cons c rest ih =>
    have hc : p c = true := h c (List.mem_cons_self c rest)
    have ih2 := ih (fun x hx => h x (List.mem_cons_of_mem c hx))
    simp [List.takeWhile_cons, hc, ih2]

lemma dropWhile_of_all {α : Type} (p : α → Bool) (l : List α)
    (h : ∀ c ∈ l, p c = true) : l.dropWhile p = [] := by
  induction l with
  | nil => rfl
  | cons c rest ih =>
    have hc : p c = true := h c (List.mem_cons_self c rest)
    have ih2 := ih (fun x hx => h x (List.mem_cons_of_mem c hx))
    simp [List.dropWhile_cons, hc, ih2]

lemma takeWhile_append_of_all {α : Type} (p : α → Bool) (l t : List α)
    (h : ∀ c ∈ l, p c = true) : (l ++ t).takeWhile p = l ++ t.takeWhile p := by
  induction l with
  | nil => rfl
  | cons c rest ih =>
    have hc : p c = true := h c (List.mem_cons_self c rest)
    have ih2 := ih (fun x hx => h x (List.mem_cons_of_mem c hx))
    simp [List.takeWhile_cons, hc, ih2]

lemma dropWhile_append_of_all {α : Type} (p : α → Bool) (l t : List α)
    (h : ∀ c ∈ l, p c = true) : (l ++ t).dropWhile p = t.dropWhile p := by
  induction l with
  | nil => rfl
  | cons c rest ih =>
    have hc : p c = true := h c (List.mem_cons_self c rest)
    have ih2 := ih (fun x hx => h x (List.mem_cons_of_mem c hx))
    simp [List.dropWhile_cons, hc, ih2]

lemma segChar_of_ne (c : Char) (h : ¬ c = '/') : segChar c = true := by
  simpa [segChar, bne_iff_ne] using h

/-- Scanning over a scheme prefix that contains no `g` finds nothing. -/
lemma findMatch_scheme_https (t : List Char) :
    findMatch ("https://".data ++ t) = findMatch t := rfl

lemma findMatch_scheme_http (t : List Char) :
    findMatch ("http://".data ++ t) = findMatch t := rfl

lemma findMatch_ithub (t : List Char) :
    findMatch ("ithub.com/".data ++ t) = findMatch t := rfl

lemma isPrefixOf_append_self (l t : List Char) : l.isPrefixOf (l ++ t) = true :=
  List.isPrefixOf_iff_prefix.mpr ⟨t, rfl⟩

/-- At the position of a literal `github.com/` the match attempt is exactly
    the two-group parse of what follows. -/
lemma matchAt_github (t : List Char) : matchAt (githubPat ++ t) = parseTwoSegs t := by
  simp [matchAt, isPrefixOf_append_self, List.drop_left]

lemma findMatch_github_some (t : List Char) (r : RepoInfo)
    (h : parseTwoSegs t = some r) : findMatch (githubPat ++ t) = some r := by
  have hm : matchAt (githubPat ++ t) = some r := by rw [matchAt_github, h]
  rw [show githubPat ++ t
      = 'g' :: 'i' :: 't' :: 'h' :: 'u' :: 'b' :: '.' :: 'c' :: 'o' :: 'm' :: '/' :: t
    from rfl] at hm ⊢
  simp [findMatch, hm]

lemma findMatch_github_none (t : List Char) (h : parseTwoSegs t = none) :
    findMatch (githubPat ++ t) = findMatch ("ithub.com/".data ++ t) := by
  have hm : matchAt (githubPat ++ t) = none := by rw [matchAt_github, h]
  rw [show githubPat ++ t
      = 'g' :: 'i' :: 't' :: 'h' :: 'u' :: 'b' :: '.' :: 'c' :: 'o' :: 'm' :: '/' :: t
    from rfl] at hm ⊢
  simp [findMatch, hm]

lemma findMatch_of_not_contains (l : List Char)
    (h : containsSub githubPat l = false) : findMatch l = none := by
  induction l with
  | nil => rfl
  | cons c rest ih =>
    simp only [containsSub, Bool.or_eq_false_iff] at h
    obtain ⟨h1, h2⟩ := h
    simp [findMatch, matchAt, h1, ih h2]

lemma contains_eq_false_of_no_slash (l : List Char) (h : ∀ c ∈ l, ¬ c = '/') :
    containsSub githubPat l = false := by
  induction l with
  | nil => rfl
  | cons c rest ih =>
    have h2 := ih (fun x hx => h x (List.mem_cons_of_mem c hx))
    have h1 : githubPat.isPrefixOf (c :: rest) = false := by
      cases hp : githubPat.isPrefixOf (c :: rest) with
      | false => rfl
      | true =>
        have hpre : githubPat <+: c :: rest := List.isPrefixOf_iff_prefix.mp hp
        have hmem : '/' ∈ c :: rest := hpre.subset (by decide)
        exact absurd rfl (h '/' hmem)
    simp [containsSub, h1, h2]

lemma findMatch_no_slash (l : List Char) (h : ∀ c ∈ l, ¬ c = '/') :
    findMatch l = none :=
  findMatch_of_not_contains l (contains_eq_false_of_no_slash l h)

/-- A slash-free run followed by a single slash can hide a `github.com/`
    occurrence (when the run ends in `github.com`), but never one with a
    nonempty first capture group, so the scan still fails. -/
lemma findMatch_no_slash_concat (l : List Char) (h : ∀ c ∈ l, ¬ c = '/') :
    findMatch (l ++ ['/']) = none := by
  induction l with
  | nil => rfl
  | cons c rest ih =>
    have htail := ih (fun x hx => h x (List.mem_cons_of_mem c hx))
    have hm : matchAt (c :: (rest ++ ['/'])) = none := by
      cases hp : githubPat.isPrefixOf (c :: (rest ++ ['/'])) with
      | false => simp [matchAt, hp]
      | true =>
        obtain ⟨t, ht⟩ := List.isPrefixOf_iff_prefix.mp hp
        rcases List.eq_nil_or_concat t with rfl | ⟨t2, x, rfl⟩
        · rw [List.append_nil] at ht
          simp only [matchAt, hp, if_true]
          rw [← ht]
          decide
        · rw [List.concat_eq_append] at ht
          exfalso
          have hx : x = '/' := by
            have h1 := congrArg List.getLast? ht
            rw [← List.append_assoc, List.getLast?_concat,
              show c :: (rest ++ ['/']) = (c :: rest) ++ ['/'] from rfl,
              List.getLast?_concat] at h1
            exact Option.some_injective _ h1
          have hcnt := congrArg (List.count '/') ht
          rw [List.count_append,
            show c :: (rest ++ ['/']) = (c :: rest) ++ ['/'] from rfl,
            List.count_append, List.count_append] at hcnt
          have hc0 : List.count '/' (c :: rest) = 0 :=
            List.count_eq_zero.mpr (fun hmem => h '/' hmem rfl)
          have hgp : List.count '/' githubPat = 1 := by decide
          have hxc : (1 : Nat) ≤ List.count '/' [x] := by
            subst hx; decide
          have hone : List.count '/' (['/'] : List Char) = 1 := by decide
          omega
    simp [findMatch, hm, htail]

lemma parseTwoSegs_pos (ow rp rs : List Char)
    (how : ow ≠ []) (hrp : rp ≠ [])
    (how2 : ∀ c ∈ ow, ¬ c = '/') (hrp2 : ∀ c ∈ rp, ¬ c = '/')
    (hrs : rs = [] ∨ ∃ t, rs = '/' :: t) :
    parseTwoSegs (ow ++ '/' :: (rp ++ rs))
      = some ⟨String.mk ow, String.mk rp⟩ := by
  have howB : ∀ c ∈ ow, segChar c = true := fun c hc => segChar_of_ne c (how2 c hc)
  have hrpB : ∀ c ∈ rp, segChar c = true := fun c hc => segChar_of_ne c (hrp2 c hc)
  have h1 : (ow ++ '/' :: (rp ++ rs)).takeWhile segChar = ow := by
    rw [takeWhile_append_of_all segChar ow _ howB, List.takeWhile_cons,
      if_neg (by decide)]
    simp
  have h2 : (ow ++ '/' :: (rp ++ rs)).dropWhile segChar = '/' :: (rp ++ rs) := by
    rw [dropWhile_append_of_all segChar ow _ howB, List.dropWhile_cons,
      if_neg (by decide)]
  have h3 : (rp ++ rs).takeWhile segChar = rp := by
    rw [takeWhile_append_of_all segChar rp _ hrpB]
    rcases hrs with rfl | ⟨t, rfl⟩
    · simp
    · rw [List.takeWhile_cons, if_neg (by decide)]
      simp
  obtain ⟨c, ow2, rfl⟩ := List.exists_cons_of_ne_nil how
  obtain ⟨d, rp2, rfl⟩ := List.exists_cons_of_ne_nil hrp
  unfold parseTwoSegs
  rw [h1, h2]
  dsimp only
  rw [h3]

lemma parseTwoSegs_no_slash (l : List Char) (h : ∀ c ∈ l, ¬ c = '/') :
    parseTwoSegs l = none := by
  have hB : ∀ c ∈ l, segChar c = true := fun c hc => segChar_of_ne c (h c hc)
  have h1 : l.takeWhile segChar = l := takeWhile_of_all _ _ hB
  have h2 : l.dropWhile segChar = [] := dropWhile_of_all _ _ hB
  unfold parseTwoSegs
  rw [h1, h2]
  cases l with
  | nil => rfl
  | cons a rest => rfl

lemma parseTwoSegs_trailing_slash (l : List Char) (h : ∀ c ∈ l, ¬ c = '/') :
    parseTwoSegs (l ++ ['/']) = none := by
  rcases l with _ | ⟨c, rest⟩
  · rfl
  · have hB : ∀ x ∈ c :: rest, segChar x = true :=
      fun x hx => segChar_of_ne x (h x hx)
    have h1 : ((c :: rest) ++ ['/']).takeWhile segChar = c :: rest := by
      rw [takeWhile_append_of_all segChar _ _ hB, List.takeWhile_cons,
        if_neg (by decide)]
      simp
    have h2 : ((c :: rest) ++ ['/']).dropWhile segChar = ['/'] := by
      rw [dropWhile_append_of_all segChar _ _ hB, List.dropWhile_cons,
        if_neg (by decide)]
    unfold parseTwoSegs
    rw [h1, h2]
    rfl

lemma mapGet_mapDelete (m : StateMap) (k : String) :
    mapGet (mapDelete m k) k = none := by
  induction m with
  | nil => rfl
  | cons p rest ih =>
    obtain ⟨k2, v⟩ := p
    by_cases hk : k2 = k
    · simpa [mapDelete, hk] using ih
    · simp [mapDelete, mapGet, hk, ih]

/-- Every backoff delay in a fetch trace is the exponential formula of the
    attempt it followed: the delays are consecutive, starting at the given
    attempt number. -/
lemma fetchLoop_delays (oracle : Nat → FetchOutcome) (retries : Nat) :
    ∀ (fuel attempt : Nat),
      ∃ n, (fetchLoop oracle retries attempt fuel).delays
        = (List.range' attempt n).map backoffDelay := by
  intro fuel
  induction fuel with
  | zero => intro attempt; exact ⟨0, rfl⟩
  | succ f ih =>
    intro attempt
    cases hres : attemptResult (oracle attempt) with
    | ok runs => exact ⟨0, by simp [fetchLoop, hres]⟩
    | error e =>
      by_cases hat : attempt = retries
      · subst hat
        exact ⟨0, by simp [fetchLoop, hres]⟩
      · by_cases hnet : isNetworkError e = true
        · obtain ⟨n, hn⟩ := ih (attempt + 1)
          exact ⟨n + 1, by simp [fetchLoop, hres, hat, hnet, List.range'_succ, hn]⟩
        · exact ⟨0, by simp [fetchLoop, hres, hat, hnet]⟩

/- ------------------------------------------------------------------
   Claims.
   ------------------------------------------------------------------ -/

/-- Claim C1 (code bug, demonstration).  The claim and the spec say a
    rate-limit (HTTP 403) response is classified as transient and retried
    with backoff up to the attempt cap.  The code even logs "Waiting before
    retry..." in the 403 branch, but the error it then throws has message
    "GitHub API rate limited: 403", `name` "Error" and no `code`, so the
    isNetworkError test (ENOTFOUND / AbortError / "fetch failed") rejects
    it and the loop returns `[]` after exactly one attempt with no backoff
    delay.  Here: a client whose every attempt is answered 403 makes one
    attempt and sleeps zero times, and the thrown rate-limit error indeed
    fails the transience test. -/
theorem c1_rate_limited_not_retried :
    fetchWorkflowRuns (fun _ => FetchOutcome.response false 403 none) 3
      = ⟨[], 1, []⟩
    ∧ isNetworkError ⟨none, "Error", httpErrorMessage 403⟩ = false := by
  decide

/-- Claim C2 (counterexample).  Prior state `{id 5, in_progress}`, observed
    latest run `{id 6, completed, success}`: the claim says the stored
    record is updated to the new run.  In the code the
    `latestRun.status !== 'completed'` guard has no else branch, so no
    `set` call is made: the record stays at the old run 5, which differs
    from the claimed new record. -/
theorem c2_superseded_completed_counterexample :
    (processRun (some ⟨5, "in_progress", none, false⟩) ⟨6, "completed", some "success"⟩
        (fun _ => ⟨"https://gif.example", 400, 300⟩)).notifications = []
    ∧ (processRun (some ⟨5, "in_progress", none, false⟩) ⟨6, "completed", some "success"⟩
        (fun _ => ⟨"https://gif.example", 400, 300⟩)).setCall = none
    ∧ entryAfter (some ⟨5, "in_progress", none, false⟩)
        (processRun (some ⟨5, "in_progress", none, false⟩) ⟨6, "completed", some "success"⟩
          (fun _ => ⟨"https://gif.example", 400, 300⟩))
        = some ⟨5, "in_progress", none, false⟩
    ∧ (⟨5, "in_progress", none, false⟩ : WorkflowState)
        ≠ (⟨6, "completed", some "success", false⟩ : WorkflowState) := by
  decide

/-- Claim C2 (amended).  When a new run superseded the tracked one and is
    already completed, the tracker emits no notification and leaves the
    stored record unchanged (it does not update it to the new run). -/
theorem c2_superseded_completed_silent (previousState : WorkflowState)
    (latestRun : WorkflowRun) (gifFor : String → GifData)
    (hid : latestRun.id ≠ previousState.latestRunId)
    (hst : latestRun.status = "completed") :
    processRun (some previousState) latestRun gifFor = ⟨none, [], []⟩
    ∧ entryAfter (some previousState)
        (processRun (some previousState) latestRun gifFor) = some previousState := by
  have h : processRun (some previousState) latestRun gifFor = ⟨none, [], []⟩ := by
    simp only [processRun]
    rw [if_pos hid, if_neg (fun hne => hne hst)]
  exact ⟨h, by rw [h]; rfl⟩

theorem c2_witness :
    processRun (some ⟨5, "in_progress", none, false⟩) ⟨6, "completed", some "cancelled"⟩
        (fun _ => ⟨"", 400, 300⟩) = ⟨none, [], []⟩
    ∧ entryAfter (some ⟨5, "in_progress", none, false⟩)
        (processRun (some ⟨5, "in_progress", none, false⟩)
          ⟨6, "completed", some "cancelled"⟩ (fun _ => ⟨"", 400, 300⟩))
        = some ⟨5, "in_progress", none, false⟩ :=
  c2_superseded_completed_silent _ _ _ (by decide) rfl

/-- Claim C3.  For a repo unseen before, the first observation of a run
    (in progress) stores it and emits nothing; the second observation of
    the same run, now completed, emits exactly one notification whose tag
    is "success" iff the conclusion is success (and "failure" otherwise,
    e.g. cancelled), and updates the record to the completed run. -/
theorem c3_first_sight_then_completion :
    ∀ (i : Nat) (g c : Option String) (gifFor : String → GifData),
      processRun none ⟨i, "in_progress", g⟩ gifFor
        = ⟨some ⟨i, "in_progress", g, false⟩, [], []⟩
      ∧ (processRun (some ⟨i, "in_progress", g, false⟩) ⟨i, "completed", c⟩
          gifFor).notifications
        = [if c = some "success" then NotifTag.success else NotifTag.failure]
      ∧ (processRun (some ⟨i, "in_progress", g, false⟩) ⟨i, "completed", c⟩
          gifFor).setCall
        = some ⟨i, "completed", c, false⟩ := by
  intro i g c gifFor
  refine ⟨rfl, ?_, ?_⟩
  all_goals simp [processRun]

/-- Claim C4.  Prior state `{id 5, in_progress}`, new observation
    `{id 6, in_progress}`: exactly one "started" notification is emitted
    (requesting the `lets get started` gif) and the record is updated to
    run 6, marked start-notified. -/
theorem c4_new_run_started :
    ∀ (prevConclusion : Option String) (notified : Bool) (c : Option String)
      (gifFor : String → GifData),
      (processRun (some ⟨5, "in_progress", prevConclusion, notified⟩)
          ⟨6, "in_progress", c⟩ gifFor).notifications = [NotifTag.started]
      ∧ (processRun (some ⟨5, "in_progress", prevConclusion, notified⟩)
          ⟨6, "in_progress", c⟩ gifFor).setCall
        = some ⟨6, "in_progress", c, true⟩ := by
  intro prevConclusion notified c gifFor
  exact ⟨rfl, rfl⟩

/-- Claim C5.  Lifecycle invariant of the RepoKey to WorkflowState map:
    (1) on the first successful poll of a repo (URL resolves, fetch
    non-empty, no entry yet) the entry is created from the latest run with
    zero notifications and zero popups, even when that run is already
    completed with a failure conclusion; (2) an unsuccessful poll (empty
    fetch result) creates nothing; (3) an unresolvable URL creates nothing;
    (4) removing a source whose URL resolves deletes the corresponding
    entry from the map (and splices the source out of the store). -/
theorem c5_state_lifecycle :
    (∀ (states : StateMap) (source : Source) (repoInfo : RepoInfo)
       (run : WorkflowRun) (more : List WorkflowRun)
       (fetchRuns : RepoInfo → List WorkflowRun) (gifFor : String → GifData),
       extractRepoInfo source.url = some repoInfo →
       fetchRuns repoInfo = run :: more →
       mapGet states (repoInfo.owner ++ "/" ++ repoInfo.repo) = none →
       checkSource states source fetchRuns gifFor
         = (mapSet states (repoInfo.owner ++ "/" ++ repoInfo.repo)
              ⟨run.id, run.status, run.conclusion, false⟩, [], []))
    ∧ (∀ (states : StateMap) (source : Source) (repoInfo : RepoInfo)
         (fetchRuns : RepoInfo → List WorkflowRun) (gifFor : String → GifData),
        extractRepoInfo source.url = some repoInfo →
        fetchRuns repoInfo = [] →
        checkSource states source fetchRuns gifFor = (states, [], []))
    ∧ (∀ (states : StateMap) (source : Source)
         (fetchRuns : RepoInfo → List WorkflowRun) (gifFor : String → GifData),
        extractRepoInfo source.url = none →
        checkSource states source fetchRuns gifFor = (states, [], []))
    ∧ (∀ (sources : List Source) (states : StateMap) (index : Nat)
         (removed : Source) (repoInfo : RepoInfo),
        sources[index]? = some removed →
        extractRepoInfo removed.url = some repoInfo →
        (removeSource sources states index).1 = sources.eraseIdx index
        ∧ mapGet (removeSource sources states index).2
            (repoInfo.owner ++ "/" ++ repoInfo.repo) = none) := by
  refine ⟨?_, ?_, ?_, ?_⟩
  · intro states source repoInfo run more fetchRuns gifFor hres hfetch hget
    simp [checkSource, hres, hfetch, hget, processRun]
  · intro states source repoInfo fetchRuns gifFor hres hfetch
    simp [checkSource, hres, hfetch]
  · intro states source fetchRuns gifFor hres
    simp [checkSource, hres]
  · intro sources states index removed repoInfo hidx hres
    constructor
    · simp [removeSource, hidx, hres]
    · simp [removeSource, hidx, hres, mapGet_mapDelete]

theorem c5_witness :
    checkSource [] ⟨"https://github.com/a/b", "2026-01-01"⟩
        (fun _ => [⟨1, "completed", some "failure"⟩]) (fun _ => ⟨"", 400, 300⟩)
      = ([("a/b", ⟨1, "completed", some "failure", false⟩)], [], [])
    ∧ (removeSource [⟨"https://github.com/a/b", "2026-01-01"⟩]
        [("a/b", ⟨1, "completed", some "failure", false⟩)] 0).1 = []
    ∧ mapGet (removeSource [⟨"https://github.com/a/b", "2026-01-01"⟩]
        [("a/b", ⟨1, "completed", some "failure", false⟩)] 0).2 "a/b" = none := by
  refine ⟨?_, ?_, ?_⟩
  · exact (c5_state_lifecycle.1 [] ⟨"https://github.com/a/b", "2026-01-01"⟩
      ⟨"a", "b"⟩ ⟨1, "completed", some "failure"⟩ [] _ _ (by decide) rfl rfl).trans
      (by decide)
  · exact ((c5_state_lifecycle.2.2.2 [⟨"https://github.com/a/b", "2026-01-01"⟩]
      [("a/b", ⟨1, "completed", some "failure", false⟩)] 0
      ⟨"https://github.com/a/b", "2026-01-01"⟩ ⟨"a", "b"⟩ rfl (by decide)).1).trans
      (by decide)
  · exact ((c5_state_lifecycle.2.2.2 [⟨"https://github.com/a/b", "2026-01-01"⟩]
      [("a/b", ⟨1, "completed", some "failure", false⟩)] 0
      ⟨"https://github.com/a/b", "2026-01-01"⟩ ⟨"a", "b"⟩ rfl (by decide)).2).trans
      (by decide)

/-- Claim C6 (counterexample).  The claim says every identifier from a
    different host resolves to `None`; but the regex is unanchored, so the
    different host `mygithub.com` (which merely contains `github.com/` as a
    substring) is accepted. -/
theorem c6_different_host_counterexample :
    extractRepoInfo "https://mygithub.com/a/b" = some ⟨"a", "b"⟩
    ∧ extractRepoInfo "https://mygithub.com/a/b" ≠ none := by decide

/-- Claim C6 (amended).  (1) For every identifier
    `<scheme?>github.com/<owner>/<repo><rest>` with scheme empty, `http://`
    or `https://`, owner and repo nonempty and slash-free, and rest either
    empty or a further `/...` path, the resolver returns the first two path
    segments after the host.  (2) For every identifier missing the repo
    segment — `https://github.com/<owner>` or, with a trailing slash,
    `https://github.com/<owner>/` — it returns None.  (3) It returns None
    for every identifier whose text does not contain the substring
    `github.com/`; this is weaker than the claimed "every different host":
    a host whose name itself contains `github.com/` (such as
    `mygithub.com`, see the counterexample) is wrongly accepted.  The
    resolver is a pure total Lean function, matching the claim that it is
    deterministic and never throws. -/
theorem c6_resolver_amended :
    (∀ (scheme owner repo rest : String),
       (scheme = "" ∨ scheme = "http://" ∨ scheme = "https://") →
       owner ≠ "" → repo ≠ "" →
       (∀ c ∈ owner.data, ¬ c = '/') → (∀ c ∈ repo.data, ¬ c = '/') →
       (rest = "" ∨ ∃ t, rest.data = '/' :: t) →
       extractRepoInfo (scheme ++ "github.com/" ++ owner ++ "/" ++ repo ++ rest)
         = some ⟨owner, repo⟩)
    ∧ (∀ owner : String, (∀ c ∈ owner.data, ¬ c = '/') →
        extractRepoInfo ("https://github.com/" ++ owner) = none
        ∧ extractRepoInfo ("https://github.com/" ++ owner ++ "/") = none)
    ∧ (∀ s : String, containsSub githubPat s.data = false →
        extractRepoInfo s = none) := by
  refine ⟨?_, ?_, ?_⟩
  · intro scheme owner repo rest hscheme how hrp how2 hrp2 hrest
    have how3 : owner.data ≠ [] := fun hd => how (String.ext (by rw [hd]))
    have hrp3 : repo.data ≠ [] := fun hd => hrp (String.ext (by rw [hd]))
    have hrs : rest.data = [] ∨ ∃ t, rest.data = '/' :: t := by
      rcases hrest with rfl | ht
      · exact Or.inl rfl
      · exact Or.inr ht
    have hparse := parseTwoSegs_pos owner.data repo.data rest.data how3 hrp3 how2 hrp2 hrs
    have hdata : (scheme ++ "github.com/" ++ owner ++ "/" ++ repo ++ rest).data
        = scheme.data ++ (githubPat ++ (owner.data ++ '/' :: (repo.data ++ rest.data))) := by
      simp only [data_append, List.append_assoc, githubPat]
      rfl
    unfold extractRepoInfo
    rw [hdata]
    rcases hscheme with rfl | rfl | rfl
    · rw [show ("".data : List Char) = [] from rfl, List.nil_append]
      exact findMatch_github_some _ ⟨owner, repo⟩ hparse
    · rw [findMatch_scheme_http]
      exact findMatch_github_some _ ⟨owner, repo⟩ hparse
    · rw [findMatch_scheme_https]
      exact findMatch_github_some _ ⟨owner, repo⟩ hparse
  · intro owner hsl
    constructor
    · have hdata : ("https://github.com/" ++ owner).data
          = "https://".data ++ (githubPat ++ owner.data) := rfl
      unfold extractRepoInfo
      rw [hdata, findMatch_scheme_https,
        findMatch_github_none _ (parseTwoSegs_no_slash _ hsl), findMatch_ithub]
      exact findMatch_no_slash _ hsl
    · have hdata : ("https://github.com/" ++ owner ++ "/").data
          = "https://".data ++ (githubPat ++ (owner.data ++ ['/'])) := rfl
      unfold extractRepoInfo
      rw [hdata, findMatch_scheme_https,
        findMatch_github_none _ (parseTwoSegs_trailing_slash _ hsl), findMatch_ithub]
      exact findMatch_no_slash_concat _ hsl
  · intro s h
    exact findMatch_of_not_contains _ h

theorem c6_witness :
    extractRepoInfo ("https://" ++ "github.com/" ++ "a" ++ "/" ++ "b" ++ "/tree/main")
      = some ⟨"a", "b"⟩
    ∧ extractRepoInfo ("https://github.com/" ++ "a") = none
    ∧ extractRepoInfo ("https://github.com/" ++ "a" ++ "/") = none
    ∧ extractRepoInfo "https://gitlab.com/a/b" = none := by
  refine ⟨?_, ?_, ?_, ?_⟩
  · exact c6_resolver_amended.1 "https://" "a" "b" "/tree/main"
      (Or.inr (Or.inr rfl)) (by decide) (by decide) (by decide) (by decide)
      (Or.inr ⟨"tree/main".data, rfl⟩)
  · exact (c6_resolver_amended.2.1 "a" (by decide)).1
  · exact (c6_resolver_amended.2.1 "a" (by decide)).2
  · exact c6_resolver_amended.2.2 "https://gitlab.com/a/b" (by decide)

/-- Claim C7.  fetchWorkflowRuns is modelled as a total function (the JS
    function catches every error: it never throws to its caller).  On a
    non-transient failure — here an HTTP 404 response on the first attempt —
    it returns the empty sequence after exactly one attempt, sleeping no
    backoff delay, for every retry budget of at least one. -/
theorem c7_nontransient_single_attempt (oracle : Nat → FetchOutcome)
    (retries : Nat) (runs : Option (List WorkflowRun))
    (h1 : oracle 1 = FetchOutcome.response false 404 runs) (hr : 1 ≤ retries) :
    fetchWorkflowRuns oracle retries = ⟨[], 1, []⟩ := by
  obtain ⟨k, rfl⟩ : ∃ k, retries = k + 1 := ⟨retries - 1, by omega⟩
  show fetchLoop oracle (k + 1) 1 (k + 1) = ⟨[], 1, []⟩
  have hres : attemptResult (oracle 1)
      = Except.error ⟨none, "Error", httpErrorMessage 404⟩ := by
    rw [h1]
    rfl
  cases k with
  | zero => simp [fetchLoop, hres]
  | succ j =>
    have hnet : isNetworkError ⟨none, "Error", httpErrorMessage 404⟩ = false := by
      decide
    have hne : (1 : Nat) ≠ j + 1 + 1 := by omega
    simp [fetchLoop, hres, hnet, hne]

theorem c7_witness :
    fetchWorkflowRuns (fun _ => FetchOutcome.response false 404 none) 3
      = ⟨[], 1, []⟩ :=
  c7_nontransient_single_attempt _ 3 none rfl (by decide)

/-- Claim C8.  In every trace of the client, the backoff delay slept after
    a failed attempt `n` (the n-th element of the delay trace, since
    retried attempts are consecutive starting at 1) is exactly
    `min(1000 * 2^(n-1), 30000)` milliseconds; in particular 1000ms after
    attempt 1, 2000ms after attempt 2, and 30000ms for every attempt from
    6 on, where the cap binds. -/
theorem c8_backoff_formula :
    ∀ (oracle : Nat → FetchOutcome) (retries : Nat),
      (fetchWorkflowRuns oracle retries).delays
        = (List.range' 1 (fetchWorkflowRuns oracle retries).delays.length).map
            (fun attempt => min (1000 * 2 ^ (attempt - 1)) 30000)
      ∧ min (1000 * 2 ^ (1 - 1)) 30000 = 1000
      ∧ min (1000 * 2 ^ (2 - 1)) 30000 = 2000
      ∧ (∀ attempt, 6 ≤ attempt → min (1000 * 2 ^ (attempt - 1)) 30000 = 30000) := by
  intro oracle retries
  refine ⟨?_, by decide, by decide, ?_⟩
  · obtain ⟨n, hn⟩ := fetchLoop_delays oracle retries retries 1
    show (fetchLoop oracle retries 1 retries).delays
        = (List.range' 1 (fetchLoop oracle retries 1 retries).delays.length).map
            (fun attempt => min (1000 * 2 ^ (attempt - 1)) 30000)
    rw [hn, List.length_map, List.length_range']
    rfl
  · intro attempt h6
    have hpow : (2 : Nat) ^ 5 ≤ 2 ^ (attempt - 1) :=
      Nat.pow_le_pow_right (by norm_num) (by omega)
    have hbig : (30000 : Nat) ≤ 1000 * 2 ^ (attempt - 1) := by
      calc (30000 : Nat) ≤ 1000 * 2 ^ 5 := by norm_num
        _ ≤ 1000 * 2 ^ (attempt - 1) := Nat.mul_le_mul_left _ hpow
    exact min_eq_right hbig

theorem c8_witness :
    (fetchWorkflowRuns
        (fun _ => FetchOutcome.thrown ⟨some "ENOTFOUND", "Error", "fetch failed"⟩)
        7).delays
      = [1000, 2000, 4000, 8000, 16000, 30000]
    ∧ min (1000 * 2 ^ (7 - 1)) 30000 = 30000 := by
  constructor
  · exact ((c8_backoff_formula
      (fun _ => FetchOutcome.thrown ⟨some "ENOTFOUND", "Error", "fetch failed"⟩)
      7).1).trans (by decide)
  · exact (c8_backoff_formula
      (fun _ => FetchOutcome.thrown ⟨some "ENOTFOUND", "Error", "fetch failed"⟩)
      7).2.2.2 7 (by decide)

/-- Claim C9.  add-source rejects with the invalid-identifier error exactly
    when the resolver returns None; otherwise it rejects with the duplicate
    error when the url is already verbatim in the store, and otherwise
    appends the new source.  In the model a rejection returns
    `Except.error` carrying no store, so the store is unchanged in both
    rejection cases. -/
theorem c9_add_source :
    ∀ (sources : List Source) (url now : String),
      (addSource sources url now = Except.error AddError.invalidUrl
        ↔ extractRepoInfo url = none)
      ∧ (extractRepoInfo url ≠ none →
          sources.any (fun source => source.url == url) = true →
          addSource sources url now = Except.error AddError.duplicate)
      ∧ (extractRepoInfo url ≠ none →
          sources.any (fun source => source.url == url) = false →
          addSource sources url now = Except.ok (sources ++ [⟨url, now⟩])) := by
  intro sources url now
  refine ⟨⟨?_, ?_⟩, ?_, ?_⟩
  · intro h
    cases hres : extractRepoInfo url with
    | none => rfl
    | some r =>
      exfalso
      cases hany : sources.any (fun source => source.url == url) <;>
        simp [addSource, hres, hany] at h
  · intro h
    simp [addSource, h]
  · intro hres hany
    cases h2 : extractRepoInfo url with
    | none => exact absurd h2 hres
    | some r => simp [addSource, h2, hany]
  · intro hres hany
    cases h2 : extractRepoInfo url with
    | none => exact absurd h2 hres
    | some r => simp [addSource, h2, hany]

theorem c9_witness :
    addSource [] "https://gitlab.com/a/b" "t0" = Except.error AddError.invalidUrl
    ∧ addSource [] "https://github.com/a/b" "t0"
        = Except.ok [⟨"https://github.com/a/b", "t0"⟩]
    ∧ addSource [⟨"https://github.com/a/b", "t0"⟩] "https://github.com/a/b" "t1"
        = Except.error AddError.duplicate := by
  refine ⟨?_, ?_, ?_⟩
  · exact (c9_add_source [] "https://gitlab.com/a/b" "t0").1.mpr (by decide)
  · exact ((c9_add_source [] "https://github.com/a/b" "t0").2.2
      (by decide) (by decide)).trans rfl
  · exact (c9_add_source [⟨"https://github.com/a/b", "t0"⟩]
      "https://github.com/a/b" "t1").2.1 (by decide) (by decide)

/-- The state-machine decisions of processRun (the `set` call and the
    notification tags) do not depend on what the gif collaborator
    returned: only the popup rendering does. -/
lemma processRun_gif_indep (p : Option WorkflowState) (r : WorkflowRun)
    (g g2 : String → GifData) :
    (processRun p r g).setCall = (processRun p r g2).setCall
    ∧ (processRun p r g).notifications = (processRun p r g2).notifications := by
  cases p with
  | none => exact ⟨rfl, rfl⟩
  | some p =>
    by_cases h1 : r.id ≠ p.latestRunId
    · by_cases h2 : r.status ≠ "completed" <;> simp [processRun, h1, h2]
    · by_cases h3 : p.status ≠ "completed" ∧ r.status = "completed" <;>
        simp [processRun, h1, h3]

/-- When every gif the collaborator returns has an empty url, no popup
    window is ever created. -/
lemma processRun_popups_empty (p : Option WorkflowState) (r : WorkflowRun)
    (gifFor : String → GifData) (hg : ∀ tag, (gifFor tag).url = "") :
    (processRun p r gifFor).popups = [] := by
  cases p with
  | none => rfl
  | some p =>
    by_cases h1 : r.id ≠ p.latestRunId
    · by_cases h2 : r.status ≠ "completed" <;> simp [processRun, h1, h2, hg]
    · by_cases h3 : p.status ≠ "completed" ∧ r.status = "completed" <;>
        simp [processRun, h1, h3, hg]

/-- Claim C10 (implicit behaviour).  When the Giphy call fails or yields no
    image, getRandomGif returns a record with an empty url instead of
    throwing; the popup is then silently skipped (`if (gifData.url)` is
    falsy) while the state machine makes exactly the same `set` call and
    emits the same notification tags as with any working gif collaborator —
    so a started/success/failure transition can be recorded with no
    user-visible popup at all. -/
theorem c10_gif_failure_silent (outcome : GiphyOutcome)
    (h : isImage outcome = false) :
    getRandomGif outcome = ⟨"", 400, 300⟩
    ∧ ∀ (previousState : Option WorkflowState) (latestRun : WorkflowRun),
        (processRun previousState latestRun (fun _ => getRandomGif outcome)).popups
          = []
        ∧ ∀ (gifFor : String → GifData),
            (processRun previousState latestRun gifFor).setCall
              = (processRun previousState latestRun
                  (fun _ => getRandomGif outcome)).setCall
            ∧ (processRun previousState latestRun gifFor).notifications
              = (processRun previousState latestRun
                  (fun _ => getRandomGif outcome)).notifications := by
  have hgif : getRandomGif outcome = ⟨"", 400, 300⟩ := by
    cases outcome
    case image u w hh => simp [isImage] at h
    all_goals rfl
  refine ⟨hgif, ?_⟩
  intro previousState latestRun
  refine ⟨?_, ?_⟩
  · exact processRun_popups_empty _ _ _ (fun tag => by rw [hgif])
  · intro gifFor
    exact processRun_gif_indep previousState latestRun gifFor _

theorem c10_witness :
    getRandomGif GiphyOutcome.noImage = ⟨"", 400, 300⟩
    ∧ (processRun (some ⟨5, "in_progress", none, false⟩) ⟨6, "in_progress", none⟩
        (fun _ => getRandomGif GiphyOutcome.noImage)).popups = []
    ∧ (processRun (some ⟨5, "in_progress", none, false⟩) ⟨6, "in_progress", none⟩
        (fun _ => ⟨"https://media.giphy.com/x.gif", 400, 300⟩)).setCall
      = (processRun (some ⟨5, "in_progress", none, false⟩) ⟨6, "in_progress", none⟩
        (fun _ => getRandomGif GiphyOutcome.noImage)).setCall :=
  ⟨(c10_gif_failure_silent GiphyOutcome.noImage rfl).1,
   ((c10_gif_failure_silent GiphyOutcome.noImage rfl).2 _ _).1,
   (((c10_gif_failure_silent GiphyOutcome.noImage rfl).2 _ _).2 _).1⟩

theorem c3_witness :
    processRun none ⟨1, "in_progress", none⟩ (fun _ => ⟨"", 400, 300⟩)
      = ⟨some ⟨1, "in_progress", none, false⟩, [], []⟩
    ∧ (processRun (some ⟨1, "in_progress", none, false⟩)
        ⟨1, "completed", some "success"⟩
        (fun _ => ⟨"", 400, 300⟩)).notifications = [NotifTag.success]
    ∧ (processRun (some ⟨1, "in_progress", none, false⟩)
        ⟨1, "completed", some "success"⟩
        (fun _ => ⟨"", 400, 300⟩)).setCall
      = some ⟨1, "completed", some "success", false⟩ := by
  have h := c3_first_sight_then_completion 1 none (some "success")
    (fun _ => ⟨"", 400, 300⟩)
  exact ⟨h.1, h.2.1.trans (by decide), h.2.2⟩

theorem c4_witness :
    (processRun (some ⟨5, "in_progress", none, false⟩) ⟨6, "in_progress", none⟩
        (fun _ => ⟨"", 400, 300⟩)).notifications = [NotifTag.started]
    ∧ (processRun (some ⟨5, "in_progress", none, false⟩) ⟨6, "in_progress", none⟩
        (fun _ => ⟨"", 400, 300⟩)).setCall
      = some ⟨6, "in_progress", none, true⟩ :=
  c4_new_run_started none false none (fun _ => ⟨"", 400, 300⟩)
